import Mathlib

/-!
Verification of the tool-augmented agent loop of the privacy-oracle CLI:
the tool registry/dispatcher, the conversation loop, the streaming handler,
the slash-command preprocessors and the shell tool, shallowly embedded from
the JavaScript sources.  Machine integers are modelled as `Int`/`Nat`,
JavaScript objects as records with `Option` fields, thrown errors as
explicit `throws` outcomes, and external collaborators (the model provider,
the blockchain SDK, the subprocess) as explicit parameters describing their
observable behaviour.
-/

/-- A JavaScript primitive value as it appears in tool inputs and results
(strings, numbers restricted to integers, booleans, and `undefined`). -/
inductive JsVal where
  | str (s : String)
  | num (n : Int)
  | bool (b : Bool)
  | undefined
  | nan
deriving Repr, DecidableEq

/-- A tool input object: an ordered list of key/value pairs. -/
abbrev ToolInput := List (String × JsVal)

/-- A JavaScript `Error` value: `message`, `stack`, and the optional
`status` (HTTP) and `code` properties the agent inspects. -/
structure JsError where
  message : String
  stack : String := ""
  status : Option Nat := none
  code : Option String := none
deriving Repr, DecidableEq

/-- The raw object returned by a tool executor on the non-throwing path:
an optional `error` field plus the remaining tool-specific fields. -/
structure RawResult where
  error : Option String := none
  fields : List (String × JsVal) := []
deriving Repr, DecidableEq

/-- Observable behaviour of one executor call: it either returns an object
or throws synchronously / rejects asynchronously (both surface identically
at the dispatcher's `await`). -/
inductive ExecBehavior where
  | returns (r : RawResult)
  | throws (e : JsError)
deriving Repr, DecidableEq

/-- The `_meta` envelope attached by the dispatcher on the success path
(`src/predict/tools/index.js`). -/
structure MetaEnvelope where
  tool : String
  duration_ms : Int
deriving Repr, DecidableEq

/-- The object returned by the dispatcher's `executeTool`: the spread of the
executor's result together with the fields the three code paths may set. -/
structure InvocationResult where
  error : Option String := none
  available_tools : Option (List String) := none
  _meta : Option MetaEnvelope := none
  tool : Option String := none
  stack : Option String := none
  fields : List (String × JsVal) := []
deriving Repr, DecidableEq

/-- A tool registry: the `toolExecutors` object, mapping tool names to
executors; an executor is called as `executor(name, input)`. -/
abbrev ToolRegistry := List (String × (String → ToolInput → ExecBehavior))

/-- Shallow embedding of `executeTool` from the tool registry
(`src/predict/tools/index.js`, also duplicated in the PNPFUCIUS registry).
The wall clock is explicit: `t0` and `t1` are the two `Date.now()` readings
taken around the executor call, and `debug` reflects `process.env.DEBUG`.
Unknown names yield an `error` object listing the registered names; a
throwing executor yields an `error` object with the thrown message; a
returning executor's object is spread and the `_meta` envelope attached. -/
def executeTool (registry : ToolRegistry) (name : String) (input : ToolInput)
    (t0 t1 : Int) (debug : Bool) : InvocationResult :=
  match registry.lookup name with
  | none =>
      { error := some ("Unknown tool: " ++ name),
        available_tools := some (registry.map Prod.fst) }
  | some executor =>
      match executor name input with
      | .returns r =>
          { error := r.error, fields := r.fields,
            _meta := some { tool := name, duration_ms := t1 - t0 } }
      | .throws e =>
          { error := some e.message,
            stack := if debug then some e.stack else none,
            tool := some name }

/-- The `toolExecutors` registry of the Claude Predict CLI
(`src/predict/tools/index.js`), parametrised by the five executor bundles
it maps the names onto. -/
def predictToolExecutors
    (market news analytics file bash : String → ToolInput → ExecBehavior) :
    ToolRegistry :=
  [("generate_market", market), ("create_market", market),
   ("list_markets", market), ("get_market_info", market),
   ("check_resolution", market),
   ("buy_tokens", market), ("sell_tokens", market),
   ("get_market_prices", market), ("get_balances", market),
   ("redeem_position", market), ("claim_refund", market),
   ("create_market_from_source", market),
   ("score_news", news), ("fetch_news", news), ("generate_from_news", news),
   ("get_stats", analytics), ("get_categories", analytics),
   ("read_file", file), ("write_file", file), ("list_files", file),
   ("run_command", bash)]

/-- The `toolExecutors` registry of the PNPFUCIUS CLI (its own
`tools/index.js`), parametrised by the two executor bundles it uses. -/
def pnpToolExecutors (market analytics : String → ToolInput → ExecBehavior) :
    ToolRegistry :=
  [("create_market", market), ("list_markets", market),
   ("get_market_info", market),
   ("buy_tokens", market), ("sell_tokens", market),
   ("get_market_prices", market), ("get_balances", market),
   ("redeem_position", market), ("claim_refund", market),
   ("create_market_from_source", market),
   ("get_settlement_criteria", market), ("get_settlement_data", market),
   ("wait_for_settlement", market), ("settle_market", market),
   ("discover_all_markets", market), ("get_market_metadata", market),
   ("get_v2_market_info", market), ("get_p2p_market_info", market),
   ("create_p2p_market_simple", market), ("create_p2p_market_with_odds", market),
   ("create_amm_market_with_odds", market),
   ("create_market_with_oracle", market),
   ("redeem_v3_position", market), ("redeem_p2p_position", market),
   ("claim_p2p_refund", market),
   ("buy_v3_tokens", market),
   ("get_pnp_config", market),
   ("get_stats", analytics), ("get_categories", analytics)]

/-- A JSON value (numerals restricted to integers in this model). -/
inductive Json where
  | null
  | bool (b : Bool)
  | num (n : Int)
  | str (s : String)
  | arr (elems : List Json)
  | obj (fields : List (String × Json))

/-- The `\x7b` character. -/
def lbrace : Char := Char.ofNat 123

/-- The `\x7d` character. -/
def rbrace : Char := Char.ofNat 125

/-- Skip JSON whitespace. -/
def skipWs : List Char → List Char
  | c :: rest =>
      if c = ' ' ∨ c = '\n' ∨ c = '\t' ∨ c = '\r' then skipWs rest else c :: rest
  | [] => []

/-- Decode one JSON string escape character. -/
def jsonEscape (e : Char) : Option Char :=
  if e = '"' then some '"'
  else if e = '\\' then some '\\'
  else if e = '/' then some '/'
  else if e = 'n' then some '\n'
  else if e = 't' then some '\t'
  else if e = 'r' then some '\r'
  else if e = 'b' then some (Char.ofNat 8)
  else if e = 'f' then some (Char.ofNat 12)
  else none

/-- Parse the body of a JSON string after its opening quote, returning the
decoded characters and the remaining input. -/
def parseStringBody (fuel : Nat) (cs : List Char) : Option (List Char × List Char) :=
  match fuel, cs with
  | 0, _ => none
  | _, [] => none
  | f + 1, c :: rest =>
      if c = '"' then some ([], rest)
      else if c = '\\' then
        match rest with
        | [] => none
        | e :: rest2 =>
            match jsonEscape e with
            | none => none
            | some d =>
                match parseStringBody f rest2 with
                | none => none
                | some (body, rem) => some (d :: body, rem)
      else
        match parseStringBody f rest with
        | none => none
        | some (body, rem) => some (c :: body, rem)

/-- Parse a run of decimal digits into a natural number. -/
def parseDigits (cs : List Char) : Option (Nat × List Char) :=
  let digits := cs.takeWhile Char.isDigit
  let rest := cs.dropWhile Char.isDigit
  if digits.isEmpty then none
  else some (digits.foldl (fun acc c => acc * 10 + (c.toNat - 48)) 0, rest)

mutual

/-- Parse one JSON value. -/
def parseVal (fuel : Nat) (cs : List Char) : Option (Json × List Char) :=
  match fuel with
  | 0 => none
  | f + 1 =>
      match skipWs cs with
      | [] => none
      | c :: rest =>
          if c = '"' then
            match parseStringBody f rest with
            | none => none
            | some (body, rem) => some (.str (String.mk body), rem)
          else if c = lbrace then
            match skipWs rest with
            | c2 :: rest2 =>
                if c2 = rbrace then some (.obj [], rest2)
                else parseMembers f (c2 :: rest2) []
            | [] => none
          else if c = '[' then
            match skipWs rest with
            | c2 :: rest2 =>
                if c2 = ']' then some (.arr [], rest2)
                else parseElems f (c2 :: rest2) []
            | [] => none
          else if c = 't' then
            match rest with
            | 'r' :: 'u' :: 'e' :: rem => some (.bool true, rem)
            | _ => none
          else if c = 'f' then
            match rest with
            | 'a' :: 'l' :: 's' :: 'e' :: rem => some (.bool false, rem)
            | _ => none
          else if c = 'n' then
            match rest with
            | 'u' :: 'l' :: 'l' :: rem => some (.null, rem)
            | _ => none
          else if c = '-' then
            match parseDigits rest with
            | none => none
            | some (n, rem) => some (.num (-(n : Int)), rem)
          else if c.isDigit then
            match parseDigits (c :: rest) with
            | none => none
            | some (n, rem) => some (.num (n : Int), rem)
          else none

/-- Parse the members of a JSON object after its opening brace (input is
positioned at the first key); `acc` collects parsed members. -/
def parseMembers (fuel : Nat) (cs : List Char) (acc : List (String × Json)) :
    Option (Json × List Char) :=
  match fuel with
  | 0 => none
  | f + 1 =>
      match skipWs cs with
      | '"' :: rest =>
          match parseStringBody f rest with
          | none => none
          | some (key, afterKey) =>
              match skipWs afterKey with
              | ':' :: afterColon =>
                  match parseVal f afterColon with
                  | none => none
                  | some (v, afterVal) =>
                      let acc2 := acc ++ [(String.mk key, v)]
                      match skipWs afterVal with
                      | ',' :: afterComma => parseMembers f afterComma acc2
                      | c :: afterClose =>
                          if c = rbrace then some (.obj acc2, afterClose) else none
                      | [] => none
              | _ => none
      | _ => none

/-- Parse the elements of a JSON array after its opening bracket (input is
positioned at the first element); `acc` collects parsed elements. -/
def parseElems (fuel : Nat) (cs : List Char) (acc : List Json) :
    Option (Json × List Char) :=
  match fuel with
  | 0 => none
  | f + 1 =>
      match parseVal f cs with
      | none => none
      | some (v, afterVal) =>
          let acc2 := acc ++ [v]
          match skipWs afterVal with
          | ',' :: afterComma => parseElems f afterComma acc2
          | ']' :: afterClose => some (.arr acc2, afterClose)
          | _ => none

end

/-- Modelled from the spec: `JSON.parse` (a JavaScript builtin, external to
the repository), restricted to integer numerals and the listed string
escapes.  The whole input must be consumed apart from trailing whitespace. -/
def parseJson (s : String) : Option Json :=
  match parseVal (2 * s.length + 2) s.toList with
  | some (v, rest) => if skipWs rest = [] then some v else none
  | none => none

example : parseJson "\x7b\"headline\":\"A\"\x7d"
    = some (.obj [("headline", .str "A")]) := by rfl

example : parseJson "\x7b\"a\": [1, -2, true, null], \"b\": \x7b\x7d\x7d"
    = some (.obj [("a", .arr [.num 1, .num (-2), .bool true, .null]),
                  ("b", .obj [])]) := by rfl

example : parseJson "\x7b\"a\": " = none := by rfl

/-- One event of the per-turn model stream, as inspected by
`ClaudePredictAgent.handleStream`: block starts (text or tool, the latter
carrying the block id and tool name), text deltas, fragments of the
JSON-encoded tool input, and block stops. -/
inductive StreamEvent where
  | blockStartText
  | blockStartTool (id name : String)
  | textDelta (s : String)
  | inputJsonDelta (s : String)
  | blockStop
deriving Repr, DecidableEq

/-- A finalized content block of the turn's assembled message. -/
inductive FinalBlock where
  | text (s : String)
  | toolUse (id name : String) (input : Option Json)

/-- The block currently being accumulated by the stream assembler. -/
inductive AccumCur where
  | noBlock
  | textBlock (buf : String)
  | toolBlock (id name : String) (buf : String)

/-- State of the stream assembler: the open block and the finished blocks. -/
structure AccumState where
  cur : AccumCur
  finished : List FinalBlock

/-- Modelled from the spec: one step of the streaming SDK's message
accumulator (`stream.finalMessage()` is external to the repository; §4.2
of the spec describes it: block-start declares the kind and tool name,
deltas are concatenated in arrival order, block-stop parses the completed
JSON text). -/
def accumulateEvent (st : AccumState) (e : StreamEvent) : AccumState :=
  match e with
  | .blockStartText => { st with cur := .textBlock "" }
  | .blockStartTool id name => { st with cur := .toolBlock id name "" }
  | .textDelta s =>
      match st.cur with
      | .textBlock buf => { st with cur := .textBlock (buf ++ s) }
      | _ => st
  | .inputJsonDelta s =>
      match st.cur with
      | .toolBlock id name buf => { st with cur := .toolBlock id name (buf ++ s) }
      | _ => st
  | .blockStop =>
      match st.cur with
      | .textBlock buf =>
          { cur := .noBlock, finished := st.finished ++ [.text buf] }
      | .toolBlock id name buf =>
          { cur := .noBlock, finished := st.finished ++ [.toolUse id name (parseJson buf)] }
      | .noBlock => st

/-- Modelled from the spec: the finalized message assembled from a turn's
event sequence (the blocks of `stream.finalMessage()`). -/
def finalizeStream (events : List StreamEvent) : List FinalBlock :=
  (events.foldl accumulateEvent ⟨.noBlock, []⟩).finished

/-- The local accumulation state of `ClaudePredictAgent.handleStream`:
the `currentToolUse` and `toolInput` variables. -/
structure HandleStreamState where
  currentToolUse : Option String
  toolInput : String
deriving Repr, DecidableEq

/-- Shallow embedding of the per-event `switch` of
`ClaudePredictAgent.handleStream`: `content_block_start` on a tool block
records the name and clears the buffer, `input_json_delta` appends the
fragment to `toolInput`, `content_block_stop` resets both; text events do
not touch this state. -/
def handleStreamStep (st : HandleStreamState) (e : StreamEvent) : HandleStreamState :=
  match e with
  | .blockStartTool _ name => { currentToolUse := some name, toolInput := "" }
  | .blockStartText => st
  | .textDelta _ => st
  | .inputJsonDelta s => { st with toolInput := st.toolInput ++ s }
  | .blockStop => { currentToolUse := none, toolInput := "" }

/-- The role of a conversation message. -/
inductive Role where
  | user
  | assistant
deriving Repr, DecidableEq

/-- A content block of a conversation message: rendered text, a tool
invocation request, or a tool result (its `content` is the serialized
invocation result). -/
inductive ContentBlock where
  | text (s : String)
  | toolUse (id name : String) (input : ToolInput)
  | toolResult (tool_use_id : String) (content : String)
deriving Repr, DecidableEq

/-- A conversation message (a plain-string user message is modelled as a
single text block). -/
structure Message where
  role : Role
  content : List ContentBlock
deriving Repr, DecidableEq

/-- Whether a block is a tool invocation request. -/
def ContentBlock.isToolUse : ContentBlock → Bool
  | .toolUse _ _ _ => true
  | _ => false

/-- The id carried by a block (`id` of a tool use, `tool_use_id` of a tool
result, empty for text). -/
def ContentBlock.blockId : ContentBlock → String
  | .toolUse id _ _ => id
  | .toolResult id _ => id
  | .text _ => ""

/-- The finalized response of one model call: its content blocks and its
stop reason string. -/
structure ModelResponse where
  content : List ContentBlock
  stop_reason : String
deriving Repr, DecidableEq

/-- Outcome of one `client.messages.stream` call (the provider is
external): a finalized response, or a thrown error. -/
inductive ModelOutcome where
  | ok (r : ModelResponse)
  | err (e : JsError)
deriving Repr, DecidableEq

/-- The mutable state of one chat turn: `this.messages` plus the trace of
cooldown sleeps performed on rate limiting. -/
structure ChatState where
  messages : List Message
  sleeps : List Nat := []
deriving Repr, DecidableEq

/-- Result of `ClaudePredictAgent.chat`: normal return, a rethrown error
(carrying the state at the moment of the throw), or fuel exhaustion (the
source loop is unbounded; fuel makes the model total). -/
inductive ChatResult where
  | done (st : ChatState)
  | thrown (e : JsError) (st : ChatState)
  | outOfFuel (st : ChatState)
deriving Repr, DecidableEq

/-- Shallow embedding of `ClaudePredictAgent.executeTools`: walk the
content blocks in order and produce one `tool_result` block per `tool_use`
block, carrying the matching id.  `execT name input` stands for
`JSON.stringify(await executeTool(name, input), null, 2)` — the dispatcher
never throws, so the iteration is a pure fold. -/
def executeTools (execT : String → ToolInput → String) :
    List ContentBlock → List ContentBlock
  | [] => []
  | .toolUse id name input :: rest =>
      .toolResult id (execT name input) :: executeTools execT rest
  | _ :: rest => executeTools execT rest

/-- Shallow embedding of the `while (true)` loop of
`ClaudePredictAgent.chat`.  `script` lists the outcomes of the successive
`client.messages.stream` calls; `fuel` bounds the number of iterations (an
exhausted script is also reported as `outOfFuel`).  A 429 error records
the 10000 ms cooldown and retries with unchanged messages; any other error
is rethrown with the current state; a finalized response is appended to
the history, and if its stop reason is `tool_use` the tool results are
appended as one user message before the next call. -/
def chatLoop (execT : String → ToolInput → String) :
    Nat → List ModelOutcome → ChatState → ChatResult
  | 0, _, st => .outOfFuel st
  | _ + 1, [], st => .outOfFuel st
  | n + 1, o :: script, st =>
      match o with
      | .err e =>
          if e.status = some 429 then
            chatLoop execT n script { st with sleeps := st.sleeps ++ [10000] }
          else .thrown e st
      | .ok resp =>
          let st1 := { st with messages := st.messages ++ [⟨.assistant, resp.content⟩] }
          if resp.stop_reason ≠ "tool_use" then .done st1
          else
            chatLoop execT n script
              { st1 with
                messages := st1.messages ++ [⟨.user, executeTools execT resp.content⟩] }

/-- Shallow embedding of `ClaudePredictAgent.chat`: push the user message,
then run the agentic loop. -/
def chat (execT : String → ToolInput → String) (fuel : Nat)
    (script : List ModelOutcome) (history : List Message) (userMessage : String) :
    ChatResult :=
  chatLoop execT fuel script
    { messages := history ++ [⟨.user, [.text userMessage]⟩], sleeps := [] }

/-- Shallow embedding of the catch handler of `ClaudePredictAgent.run`'s
input loop: given the outcome of `chat`, the session breaks out of the
prompt loop (`none`) only on `ERR_USE_AFTER_CLOSE`; any other error is
printed and the loop continues prompting with the agent's message history
as `chat` left it (`some` of that state). -/
def runStep : ChatResult → Option ChatState
  | .done st => some st
  | .outOfFuel st => some st
  | .thrown e st =>
      if e.code = some "ERR_USE_AFTER_CLOSE" then none else some st

/-- Whether a JavaScript value is falsy (as tested by `||` defaults). -/
def JsVal.falsy : JsVal → Bool
  | .undefined => true
  | .num 0 => true
  | .str "" => true
  | .bool false => true
  | .nan => true
  | _ => false

/-- JavaScript `v || d`. -/
def jsOr (v d : JsVal) : JsVal := if v.falsy then d else v

/-- Property access `input.k`, yielding `undefined` for a missing key. -/
def jsGetVal (input : ToolInput) (k : String) : JsVal :=
  (input.lookup k).getD .undefined

/-- Parse a run of decimal digits as `parseInt` does (leading digits only,
trailing junk ignored; no digits means NaN, modelled as `none`). -/
def jsIntDigits (cs : List Char) : Option Int :=
  let digits := cs.takeWhile Char.isDigit
  if digits.isEmpty then none
  else some ((digits.foldl (fun acc c => acc * 10 + (c.toNat - 48)) 0 : Nat) : Int)

/-- JavaScript `parseInt` on a string (base 10, integer literals; `none`
stands for NaN). -/
def jsParseInt (s : String) : Option Int :=
  match s.trim.toList with
  | '-' :: rest => (jsIntDigits rest).map Neg.neg
  | '+' :: rest => jsIntDigits rest
  | cs => jsIntDigits cs

/-- JavaScript `parseInt(s) || d` (NaN and 0 are both falsy). -/
def parseIntOr (s : String) (d : Int) : Int :=
  match jsParseInt s with
  | some n => if n = 0 then d else n
  | none => d

/-- JavaScript `s || d` on strings coming from possibly-missing arguments
(a missing argument is modelled as the empty string; both `undefined` and
`""` are falsy). -/
def strOr (s d : String) : String := if s = "" then d else s

/-- JavaScript `parseFloat` as a tool-input value (restricted to integer
literals in this model; `nan` when no digits parse). -/
def jsParseFloatVal (s : String) : JsVal :=
  match jsParseInt s with
  | some n => .num n
  | none => .nan

/-- A JavaScript whitespace character (the subset relevant here). -/
def isJsSpace (c : Char) : Bool :=
  c = ' ' ∨ c = '\t' ∨ c = '\n' ∨ c = '\r'

/-- JavaScript `String.prototype.trim` (modelled over the character
list). -/
def jsTrim (s : String) : String :=
  String.mk (((s.toList.dropWhile isJsSpace).reverse.dropWhile isJsSpace).reverse)

/-- JavaScript `String.prototype.startsWith`. -/
def jsStartsWith (s pre : String) : Bool :=
  pre.toList.isPrefixOf s.toList

/-- JavaScript `String.prototype.slice(n)` for a non-negative `n`. -/
def jsDrop (s : String) (n : Nat) : String :=
  String.mk (s.toList.drop n)

/-- JavaScript `String.prototype.toLowerCase` (ASCII). -/
def jsToLower (s : String) : String :=
  String.mk (s.toList.map Char.toLower)

/-- Accumulator loop of `split(' ')`: `cur` holds the reversed current
token. -/
def splitSpaceAux : List Char → List Char → List String
  | [], cur => [String.mk cur.reverse]
  | c :: rest, cur =>
      if c = ' ' then String.mk cur.reverse :: splitSpaceAux rest []
      else splitSpaceAux rest (c :: cur)

/-- JavaScript `String.prototype.split(' ')` (always non-empty). -/
def jsSplitSpace (s : String) : List String :=
  splitSpaceAux s.toList []

/-- JavaScript `Array.prototype.join(' ')`. -/
def jsJoinSpace : List String → String
  | [] => ""
  | [x] => x
  | x :: rest => x ++ " " ++ jsJoinSpace rest

/-- The head of a token list, or `""` for the (impossible) empty list. -/
def headOr : List String → String
  | [] => ""
  | x :: _ => x

/-- Outcome of the slash-command preprocessor: `handled` is the `true`
return, `forwarded` the prompt-string return, `notACommand` the `false`
return, and `exits` the `process.exit(0)` branches. -/
inductive SlashOutcome where
  | handled
  | forwarded (prompt : String)
  | notACommand
  | exits
deriving Repr, DecidableEq

/-- Console/side effects performed by a slash-command handler (chalk
styling and indentation are presentation and are not modelled; `line`
carries the printed text, `invoke` a direct dispatcher call). -/
inductive ConsoleEffect where
  | printHelp
  | printGoodbye
  | printWelcome
  | clearHistory
  | showConfig
  | showCategories
  | showTools
  | line (s : String)
  | invoke (tool : String) (input : ToolInput)
deriving Repr, DecidableEq

/-- Shallow embedding of `handleSlashCommand` of the Claude Predict CLI
(`src/predict/slash-commands.js`, the variant used by
`ClaudePredictAgent`): trim the input, pass non-`/` lines through, split
the rest into a command word and arguments, and dispatch on the lowercased
command word.  `hasClearHistory` models whether the caller's `context`
provides `clearHistory`. -/
def handleSlashCommand (hasClearHistory : Bool) (input : String) :
    SlashOutcome × List ConsoleEffect :=
  let trimmed := jsTrim input
  if ¬ jsStartsWith trimmed "/" then (.notACommand, [])
  else
    let parts := jsSplitSpace (jsDrop trimmed 1)
    let command := headOr parts
    let args := parts.tail
    let argString := jsJoinSpace args
    let cmd := jsToLower command
    if cmd = "help" ∨ cmd = "h" ∨ cmd = "?" then (.handled, [.printHelp])
    else if cmd = "exit" ∨ cmd = "quit" ∨ cmd = "q" then (.exits, [.printGoodbye])
    else if cmd = "clear" ∨ cmd = "cls" then
      (.handled, .printWelcome :: if hasClearHistory then [.clearHistory] else [])
    else if cmd = "config" then (.handled, [.showConfig])
    else if cmd = "generate" ∨ cmd = "gen" then
      (.forwarded ("Generate " ++ toString (parseIntOr (headOr args) 3) ++
        " privacy-themed prediction market ideas. Be creative and focus on current events."), [])
    else if cmd = "create" then
      if argString ≠ "" then
        (.forwarded ("Create a prediction market with the question: \"" ++ argString ++ "\""), [])
      else
        (.forwarded
          "Help me create a new prediction market. Ask me what topic I want to create a market about.", [])
    else if cmd = "stats" then
      (.forwarded ("Show me market statistics for the " ++ strOr (headOr args) "7d" ++ " period."), [])
    else if cmd = "news" then
      (.forwarded ("Fetch and score the top " ++ toString (parseIntOr (headOr args) 5) ++
        " recent privacy-related news items for market potential."), [])
    else if cmd = "markets" ∨ cmd = "list" then
      (.forwarded ("List my " ++ strOr (headOr args) "all" ++ " markets."), [])
    else if cmd = "categories" ∨ cmd = "cats" then (.handled, [.showCategories])
    else if cmd = "score" then
      if argString ≠ "" then
        (.forwarded ("Score this news headline for privacy market relevance: \"" ++ argString ++ "\""), [])
      else (.handled, [.line "Usage: /score <news headline>"])
    else if cmd = "tools" then (.handled, [.showTools])
    else
      (.handled, [.line ("Unknown command: /" ++ command),
                  .line "Type /help for available commands."])

/-- The recognized command vocabulary of the Claude Predict slash handler
(every case label of its `switch`, lowercased as compared). -/
def predictSlashVocabulary : List String :=
  ["help", "h", "?", "exit", "quit", "q", "clear", "cls", "config",
   "generate", "gen", "create", "stats", "news", "markets", "list",
   "categories", "cats", "score", "tools"]

/-- The command word of an input line as the handler computes it: first
space-separated token after the `/`, lowercased. -/
def slashCommandWord (input : String) : String :=
  jsToLower (headOr (jsSplitSpace (jsDrop (jsTrim input) 1)))

/-- Shallow embedding of `handleSlashCommand` of the PNPFUCIUS CLI (the
repository's second `slash-commands.js`; renamed here because Lean cannot
hold two top-level declarations of the same name).  This variant performs
direct dispatcher invocations; `hasExecTool` models whether the caller's
`context` provides `executeTool` (the CLI's `run` loop does). -/
def handleSlashCommandPnp (hasExecTool : Bool) (input : String) :
    SlashOutcome × List ConsoleEffect :=
  let trimmed := jsTrim input
  if ¬ jsStartsWith trimmed "/" then (.notACommand, [])
  else
    let parts := jsSplitSpace (jsDrop trimmed 1)
    let command := headOr parts
    let args := parts.tail
    let argString := jsJoinSpace args
    let cmd := jsToLower command
    if cmd = "help" ∨ cmd = "h" ∨ cmd = "?" then (.handled, [.printHelp])
    else if cmd = "exit" ∨ cmd = "quit" ∨ cmd = "q" then (.exits, [.printGoodbye])
    else if cmd = "clear" ∨ cmd = "cls" then (.handled, [.printWelcome])
    else if cmd = "config" then (.handled, [.showConfig])
    else if cmd = "discover" ∨ cmd = "explore" ∨ cmd = "markets" then
      (.handled,
       if hasExecTool then
         [.invoke "discover_all_markets" [("version", .str (strOr (headOr args) "all"))]]
       else [])
    else if cmd = "create" then
      if argString ≠ "" then
        (.handled,
         if hasExecTool then
           [.invoke "create_market"
             [("question", .str argString), ("liquidity_usdc", .num 1),
              ("duration_days", .num 30)]]
         else [])
      else
        (.handled, [.line "Usage: /create <market question>",
                    .line "Example: /create Will BTC reach $100k by 2025?"])
    else if cmd = "p2p" then
      if argString ≠ "" then
        (.handled,
         if hasExecTool then
           [.invoke "create_p2p_market_simple"
             [("question", .str argString), ("side", .str "yes"),
              ("amount_usdc", .num 1)]]
         else [])
      else
        (.handled, [.line "Usage: /p2p <market question>",
                    .line "Example: /p2p Will ETH flip BTC in 2025?"])
    else if cmd = "odds" then
      if args.length ≥ 2 then
        (.handled,
         match jsParseInt (headOr args) with
         | some odds =>
             if hasExecTool then
               [.invoke "create_amm_market_with_odds"
                 [("question", .str (jsJoinSpace (args.drop 1))),
                  ("yes_odds_percent", .num odds), ("liquidity_usdc", .num 1)]]
             else []
         | none => [])
      else
        (.handled, [.line "Usage: /odds <percent> <question>",
                    .line "Example: /odds 70 Will SOL reach $500?"])
    else if cmd = "info" then
      if argString ≠ "" then
        (.handled,
         if hasExecTool then
           [.invoke "get_market_info" [("market_address", .str argString)]]
         else [])
      else (.handled, [.line "Usage: /info <market_address>"])
    else if cmd = "buy" then
      if args.length ≥ 3 then
        (.handled,
         if hasExecTool then
           [.invoke "buy_tokens"
             [("market_address", .str (headOr args)),
              ("side", .str (headOr (args.drop 1))),
              ("amount_usdc", jsParseFloatVal (headOr (args.drop 2)))]]
         else [])
      else
        (.handled, [.line "Usage: /buy <market_address> <yes|no> <usdc_amount>",
                    .line "Example: /buy 7xKXw9... yes 10"])
    else if cmd = "sell" then
      if args.length ≥ 3 then
        (.handled,
         if hasExecTool then
           [.invoke "sell_tokens"
             [("market_address", .str (headOr args)),
              ("side", .str (headOr (args.drop 1))),
              ("amount", jsParseFloatVal (headOr (args.drop 2)))]]
         else [])
      else
        (.handled, [.line "Usage: /sell <market_address> <yes|no> <token_amount>"])
    else if cmd = "prices" ∨ cmd = "price" then
      if argString ≠ "" then
        (.handled,
         if hasExecTool then
           [.invoke "get_market_prices" [("market_address", .str argString)]]
         else [])
      else (.handled, [.line "Usage: /prices <market_address>"])
    else if cmd = "balance" ∨ cmd = "balances" then
      if argString ≠ "" then
        (.handled,
         if hasExecTool then
           [.invoke "get_balances" [("market_address", .str argString)]]
         else [])
      else (.handled, [.line "Usage: /balance <market_address>"])
    else if cmd = "oracle" ∨ cmd = "criteria" then
      if argString ≠ "" then
        (.handled,
         if hasExecTool then
           [.invoke "get_settlement_criteria" [("market_address", .str argString)]]
         else [])
      else
        (.handled, [.line "Usage: /oracle <market_address>",
                    .line "Get AI-generated settlement criteria from PNP Oracle"])
    else if cmd = "settlement" ∨ cmd = "resolve" then
      if argString ≠ "" then
        (.handled,
         if hasExecTool then
           [.invoke "get_settlement_data" [("market_address", .str argString)]]
         else [])
      else
        (.handled, [.line "Usage: /settlement <market_address>",
                    .line "Get resolution result from PNP Oracle"])
    else if cmd = "settle" then
      if args.length ≥ 2 then
        (.handled,
         if hasExecTool then
           [.invoke "settle_market"
             [("market_address", .str (headOr args)),
              ("outcome", .str (headOr (args.drop 1)))]]
         else [])
      else
        (.handled, [.line "Usage: /settle <market_address> <yes|no>",
                    .line "Settle market with specified outcome (requires authority)"])
    else if cmd = "redeem" then
      if argString ≠ "" then
        (.handled,
         if hasExecTool then
           [.invoke "redeem_position" [("market_address", .str argString)]]
         else [])
      else (.handled, [.line "Usage: /redeem <market_address>"])
    else if cmd = "refund" then
      if argString ≠ "" then
        (.handled,
         if hasExecTool then
           [.invoke "claim_refund" [("market_address", .str argString)]]
         else [])
      else (.handled, [.line "Usage: /refund <market_address>"])
    else if cmd = "pnp" then
      (.handled, if hasExecTool then [.invoke "get_pnp_config" []] else [])
    else if cmd = "tools" then (.handled, [.showTools])
    else
      (.handled, [.line ("Unknown command: /" ++ command),
                  .line "Type /help for available commands."])

/-- The `create_market` case of `executeMarketTool`
(`src/predict/tools/market-tools.js`).  `agent.createMarket` is an external
SDK call, modelled by its outcome `chain` (the created market address and
transaction signature, or a thrown error); `network` is `config.network`.
On success the executor returns the success envelope the source builds. -/
def executeMarketTool_create (chain : Except JsError (String × String))
    (network : String) (input : ToolInput) : ExecBehavior :=
  match chain with
  | .error e => .throws e
  | .ok (market, signature) =>
      .returns
        { error := none,
          fields :=
            [("success", .bool true),
             ("market", .str market),
             ("signature", .str signature),
             ("question", jsGetVal input "question"),
             ("duration_days", jsOr (jsGetVal input "duration_days") (.num 30)),
             ("liquidity_usdc", jsOr (jsGetVal input "liquidity_usdc") (.num 1)),
             ("type", jsOr (jsGetVal input "type") (.str "amm")),
             ("network", .str network)] }

/-- The destructured input of the shell tool (`const \x7b command, cwd,
timeout = 30000 \x7d = input`); `none` models an absent / `undefined`
property. -/
structure BashInput where
  command : String
  cwd : Option String := none
  timeout : Option Int := none
deriving Repr, DecidableEq

/-- The first promise-resolving event produced by the spawned subprocess:
its `close` event (nullable exit code plus the accumulated stdout/stderr)
or its `error` event. -/
inductive ProcEvent where
  | close (code : Option Int) (stdout stderr : String)
  | procError (msg : String)
deriving Repr, DecidableEq

/-- Externally observable behaviour of the spawned subprocess: the time
(milliseconds after spawn) and kind of its first `close`/`error` event, or
`none` if it never fires. -/
structure ProcBehavior where
  event : Option (Int × ProcEvent)
deriving Repr, DecidableEq

/-- The result object of the shell tool (fields absent on a given path are
`none`). -/
structure BashResult where
  command : Option String := none
  exit_code : Option (Option Int) := none
  stdout : Option String := none
  stderr : Option String := none
  success : Option Bool := none
  error : Option String := none
deriving Repr, DecidableEq

/-- What the shell tool resolved with, plus whether it killed the
subprocess. -/
structure BashOutcome where
  result : BashResult
  killed : Bool
deriving Repr, DecidableEq

/-- The effective wall-clock timeout of the shell tool: the input's
`timeout` property, defaulting to 30000 ms when absent. -/
def bashEffectiveTimeout (input : BashInput) : Int :=
  input.timeout.getD 30000

/-- Shallow embedding of `executeBashTool` (`bash-tool.js`): reject other
tool names; otherwise resolve with the subprocess's `close`/`error` event
if it fires strictly before the timeout, and with the kill-and-timeout
failure otherwise.  The promise resolves exactly once (later events find
it already settled), so the function returns the first event in time. -/
def executeBashTool (name : String) (input : BashInput) (proc : ProcBehavior) :
    BashOutcome :=
  if name ≠ "run_command" then
    ⟨{ error := some ("Unknown bash tool: " ++ name) }, false⟩
  else
    let timeoutOutcome : BashOutcome :=
      ⟨{ command := some input.command, error := some "Command timed out",
         success := some false }, true⟩
    match proc.event with
    | none => timeoutOutcome
    | some (t, ev) =>
        if t < bashEffectiveTimeout input then
          match ev with
          | .close code stdout stderr =>
              ⟨{ command := some input.command, exit_code := some code,
                 stdout := some stdout.trim, stderr := some stderr.trim,
                 success := some (code = some 0) }, false⟩
          | .procError msg =>
              ⟨{ command := some input.command, error := some msg,
                 success := some false }, false⟩
        else timeoutOutcome

/-- A demonstration executor that always throws. -/
def c1ThrowExec : String → ToolInput → ExecBehavior :=
  fun _ _ => .throws { message := "boom", stack := "trace" }

/-- A one-tool demonstration registry whose executor always throws. -/
def c1Registry : ToolRegistry := [("score_news", c1ThrowExec)]

/-- C1: `executeTool` is total (it returns an `InvocationResult` for every
name and input — it can neither throw nor reject); a registered executor
that throws or rejects yields a result whose `error` field is the thrown
message, and an unregistered name yields a result whose `error` field is
set and whose `available_tools` list is exactly the registered names. -/
theorem executeTool_error_containment_c1 (registry : ToolRegistry)
    (name : String) (input : ToolInput) (t0 t1 : Int) (debug : Bool) :
    (∀ ex e, registry.lookup name = some ex → ex name input = .throws e →
        (executeTool registry name input t0 t1 debug).error = some e.message) ∧
    (registry.lookup name = none →
        (executeTool registry name input t0 t1 debug).error
            = some ("Unknown tool: " ++ name) ∧
        (executeTool registry name input t0 t1 debug).available_tools
            = some (registry.map Prod.fst)) := by
  constructor
  · intro ex e hlook hthrow
    simp [executeTool, hlook, hthrow]
  · intro hlook
    simp [executeTool, hlook]

/-- Witness for C1 at a concrete registry: the throwing executor's message
lands in `error`, and an unknown name reports the registered names. -/
theorem executeTool_error_containment_c1_witness :
    (executeTool c1Registry "score_news" [] 0 5 false).error = some "boom" ∧
    (executeTool c1Registry "missing_tool" [] 0 5 false).error
        = some "Unknown tool: missing_tool" ∧
    (executeTool c1Registry "missing_tool" [] 0 5 false).available_tools
        = some ["score_news"] := by
  refine ⟨?_, ?_, ?_⟩
  · exact (executeTool_error_containment_c1 c1Registry "score_news" [] 0 5 false).1
      c1ThrowExec { message := "boom", stack := "trace" } (by rfl) (by rfl)
  · exact ((executeTool_error_containment_c1 c1Registry "missing_tool" [] 0 5 false).2
      (by rfl)).1
  · exact ((executeTool_error_containment_c1 c1Registry "missing_tool" [] 0 5 false).2
      (by rfl)).2

/-- A one-tool demonstration registry whose executor always throws. -/
def c2Registry : ToolRegistry :=
  [("score_news", fun _ _ => .throws { message := "boom", stack := "trace" })]

/-- C2 counterexample: the claim says every dispatcher result carries a
`_meta` envelope with `_meta.tool` equal to the requested name, but the
throw path and the unknown-name path of `executeTool` return objects with
no `_meta` at all (the throw path reports the name in a top-level `tool`
field instead). -/
theorem executeTool_meta_c2_counterexample :
    (executeTool c2Registry "score_news" [] 0 5 false)._meta = none ∧
    (executeTool c2Registry "score_news" [] 0 5 false).tool = some "score_news" ∧
    (executeTool c2Registry "unknown_name" [] 0 5 false)._meta = none := by
  refine ⟨by rfl, by rfl, by rfl⟩

/-- C2 (amended): only the success path of `executeTool` carries the
`_meta` envelope — there `_meta.tool` equals the requested name and
`duration_ms` is the difference of the two clock readings, non-negative
whenever the second reading is not earlier than the first; the throw path
carries no `_meta` and reports the requested name in a top-level `tool`
field, and the unknown-name path carries no `_meta` either. -/
theorem executeTool_meta_c2_amended (registry : ToolRegistry) (name : String)
    (input : ToolInput) (t0 t1 : Int) (debug : Bool) :
    (∀ ex r, registry.lookup name = some ex → ex name input = .returns r →
        (executeTool registry name input t0 t1 debug)._meta
            = some { tool := name, duration_ms := t1 - t0 } ∧
        (t0 ≤ t1 →
          ∀ m, (executeTool registry name input t0 t1 debug)._meta = some m →
            0 ≤ m.duration_ms)) ∧
    (∀ ex e, registry.lookup name = some ex → ex name input = .throws e →
        (executeTool registry name input t0 t1 debug)._meta = none ∧
        (executeTool registry name input t0 t1 debug).tool = some name) ∧
    (registry.lookup name = none →
        (executeTool registry name input t0 t1 debug)._meta = none) := by
  refine ⟨?_, ?_, ?_⟩
  · intro ex r hlook hret
    refine ⟨by simp [executeTool, hlook, hret], ?_⟩
    intro hle m hm
    simp [executeTool, hlook, hret] at hm
    simp [← hm, sub_nonneg.mpr hle]
  · intro ex e hlook hthrow
    exact ⟨by simp [executeTool, hlook, hthrow], by simp [executeTool, hlook, hthrow]⟩
  · intro hlook
    simp [executeTool, hlook]

/-- A demonstration executor that returns an empty object. -/
def c2OkExec : String → ToolInput → ExecBehavior := fun _ _ => .returns {}

/-- A one-tool demonstration registry whose executor returns normally. -/
def c2OkRegistry : ToolRegistry := [("get_stats", c2OkExec)]

/-- Witness for the amended C2 at concrete registries. -/
theorem executeTool_meta_c2_amended_witness :
    (executeTool c2OkRegistry "get_stats" [] 2 5 false)._meta
        = some { tool := "get_stats", duration_ms := 3 } ∧
    (executeTool c2Registry "score_news" [] 2 5 false)._meta = none ∧
    (executeTool c2OkRegistry "unknown_name" [] 2 5 false)._meta = none := by
  refine ⟨?_, ?_, ?_⟩
  · exact ((executeTool_meta_c2_amended c2OkRegistry "get_stats" [] 2 5 false).1
      c2OkExec {} (by rfl) (by rfl)).1
  · exact ((executeTool_meta_c2_amended c2Registry "score_news" [] 2 5 false).2.1
      (fun _ _ => .throws { message := "boom", stack := "trace" })
      { message := "boom", stack := "trace" } (by rfl) (by rfl)).1
  · exact (executeTool_meta_c2_amended c2OkRegistry "unknown_name" [] 2 5 false).2.2
      (by rfl)

/-- C9: the shell tool `run_command` enforces a wall-clock timeout of
30000 ms unless the input specifies another value; if the subprocess's
`close`/`error` event does not fire before the effective timeout (or never
fires), the process is killed and the tool still resolves — it is a total
function, so it neither hangs nor rejects — with a failure result whose
`error` field reports that the command timed out. -/
theorem bash_timeout_c9 (input : BashInput) (proc : ProcBehavior)
    (h : ∀ t ev, proc.event = some (t, ev) → bashEffectiveTimeout input ≤ t) :
    executeBashTool "run_command" input proc
      = ⟨{ command := some input.command, error := some "Command timed out",
           success := some false }, true⟩ ∧
    (input.timeout = none → bashEffectiveTimeout input = 30000) := by
  constructor
  · match hev : proc.event with
    | none => simp [executeBashTool, hev]
    | some (t, ev) =>
        have hle := h t ev hev
        simp [executeBashTool, hev, not_lt.mpr hle]
  · intro ht
    simp [bashEffectiveTimeout, ht]

/-- Witness for C9: a subprocess that never closes, run with the default
timeout, resolves with the killed-and-timed-out failure. -/
theorem bash_timeout_c9_witness :
    executeBashTool "run_command" { command := "sleep 60" } ⟨none⟩
      = ⟨{ command := some "sleep 60", error := some "Command timed out",
           success := some false }, true⟩ ∧
    bashEffectiveTimeout { command := "sleep 60" } = 30000 := by
  have h := bash_timeout_c9 { command := "sleep 60" } ⟨none⟩
    (fun t ev hev => Option.noConfusion hev)
  exact ⟨h.1, h.2 rfl⟩

/-- Folding the SDK accumulator over input-JSON delta events appends each
fragment to the open tool block's buffer in arrival order. -/
theorem foldl_jsonDeltas (id name : String) (frags : List String)
    (buf : String) (fin : List FinalBlock) :
    (frags.map StreamEvent.inputJsonDelta).foldl accumulateEvent
        ⟨.toolBlock id name buf, fin⟩
      = ⟨.toolBlock id name (frags.foldl (· ++ ·) buf), fin⟩ := by
  induction frags generalizing buf with
  | nil => rfl
  | cons f rest ih =>
      simp only [List.map_cons, List.foldl_cons]
      exact ih (buf ++ f)

/-- Folding the source's `handleStream` state over input-JSON delta events
appends each fragment to `toolInput` in arrival order and leaves
`currentToolUse` unchanged. -/
theorem foldl_handleStream_deltas (st : HandleStreamState) (frags : List String) :
    (frags.map StreamEvent.inputJsonDelta).foldl handleStreamStep st
      = ⟨st.currentToolUse, frags.foldl (· ++ ·) st.toolInput⟩ := by
  induction frags generalizing st with
  | nil => rfl
  | cons f rest ih =>
      simp only [List.map_cons, List.foldl_cons]
      exact ih ⟨st.currentToolUse, st.toolInput ++ f⟩

/-- C6: a streamed tool block finalizes into a single `ToolUse` block named
as declared at block-start, whose input is the parse of the delta fragments
concatenated in arrival order — for any number of fragments; the source's
`handleStream` accumulates its `toolInput` buffer the same way; and in
particular the fragments of the `score_news` scenario finalize into the
block with input parsed as an object with `headline` mapped to `"A"`. -/
theorem stream_tool_input_assembly_c6 :
    (∀ (id name : String) (frags : List String),
        finalizeStream
            (.blockStartTool id name :: frags.map .inputJsonDelta ++ [.blockStop])
          = [.toolUse id name (parseJson (frags.foldl (· ++ ·) ""))]) ∧
    (∀ (st : HandleStreamState) (frags : List String),
        (frags.map StreamEvent.inputJsonDelta).foldl handleStreamStep st
          = ⟨st.currentToolUse, frags.foldl (· ++ ·) st.toolInput⟩) ∧
    finalizeStream
        [.blockStartTool "toolu_01" "score_news",
         .inputJsonDelta "\x7b\"headline\":\"", .inputJsonDelta "A\"\x7d",
         .blockStop]
      = [.toolUse "toolu_01" "score_news"
          (some (.obj [("headline", .str "A")]))] := by
  refine ⟨?_, foldl_handleStream_deltas, ?_⟩
  · intro id name frags
    simp only [finalizeStream, List.foldl_cons, List.foldl_append]
    rw [show accumulateEvent ⟨.noBlock, []⟩ (.blockStartTool id name)
          = ⟨.toolBlock id name "", []⟩ from rfl]
    rw [foldl_jsonDeltas]
    rfl
  · rfl

/-- Whether an assistant message's content contains a tool invocation
request. -/
def hasToolUse (content : List ContentBlock) : Bool :=
  content.any ContentBlock.isToolUse

/-- The `tool_result` block `executeTools` pushes for a `tool_use` block
(other block kinds produce no result and are returned unchanged). -/
def ContentBlock.resultFor (execT : String → ToolInput → String) :
    ContentBlock → ContentBlock
  | .toolUse id name input => .toolResult id (execT name input)
  | b => b

/-- `executeTools` is exactly: keep the `tool_use` blocks in order and map
each to its `tool_result`. -/
theorem executeTools_eq_filter_map (execT : String → ToolInput → String)
    (content : List ContentBlock) :
    executeTools execT content
      = (content.filter ContentBlock.isToolUse).map (ContentBlock.resultFor execT) := by
  induction content with
  | nil => rfl
  | cons b rest ih =>
      cases b <;>
        simp [executeTools, ContentBlock.isToolUse, ContentBlock.resultFor, ih]

/-- Producing a block's result preserves its id. -/
theorem resultFor_blockId (execT : String → ToolInput → String)
    (b : ContentBlock) :
    (b.resultFor execT).blockId = b.blockId := by
  cases b <;> rfl

/-- One loop iteration on a 429 error: record the cooldown and retry with
the message history unchanged. -/
theorem chatLoop_err429_step (execT : String → ToolInput → String)
    (e : JsError) (n : Nat) (script : List ModelOutcome) (st : ChatState)
    (he : e.status = some 429) :
    chatLoop execT (n + 1) (.err e :: script) st
      = chatLoop execT n script ⟨st.messages, st.sleeps ++ [10000]⟩ := by
  simp [chatLoop, he]

/-- One loop iteration on a non-429 error: rethrow with the current state. -/
theorem chatLoop_err_other_step (execT : String → ToolInput → String)
    (e : JsError) (n : Nat) (script : List ModelOutcome) (st : ChatState)
    (he : e.status ≠ some 429) :
    chatLoop execT (n + 1) (.err e :: script) st = .thrown e st := by
  simp [chatLoop, he]

/-- One loop iteration on a response whose stop reason is not `tool_use`:
append the assistant message and return. -/
theorem chatLoop_ok_end_step (execT : String → ToolInput → String)
    (resp : ModelResponse) (n : Nat) (script : List ModelOutcome)
    (st : ChatState) (hstop : resp.stop_reason ≠ "tool_use") :
    chatLoop execT (n + 1) (.ok resp :: script) st
      = .done ⟨st.messages ++ [⟨.assistant, resp.content⟩], st.sleeps⟩ := by
  simp [chatLoop, hstop]

/-- One loop iteration on a `tool_use` response: append the assistant
message, then the tool results as one user message, then call again. -/
theorem chatLoop_ok_toolUse_step (execT : String → ToolInput → String)
    (resp : ModelResponse) (n : Nat) (script : List ModelOutcome)
    (st : ChatState) (hstop : resp.stop_reason = "tool_use") :
    chatLoop execT (n + 1) (.ok resp :: script) st
      = chatLoop execT n script
          ⟨st.messages ++ [⟨.assistant, resp.content⟩]
             ++ [⟨.user, executeTools execT resp.content⟩], st.sleeps⟩ := by
  simp [chatLoop, hstop]

/-- A normal return of the loop only ever extends the message history. -/
theorem chatLoop_done_extends (execT : String → ToolInput → String) :
    ∀ (n : Nat) (script : List ModelOutcome) (st st' : ChatState),
      chatLoop execT n script st = .done st' → st.messages <+: st'.messages := by
  intro n
  induction n with
  | zero =>
      intro script st st' h
      simp [chatLoop] at h
  | succ n ih =>
      intro script st st' h
      match script with
      | [] => simp [chatLoop] at h
      | .err e :: rest =>
          by_cases he : e.status = some 429
          · rw [chatLoop_err429_step execT e n rest st he] at h
            exact ih rest ⟨st.messages, st.sleeps ++ [10000]⟩ st' h
          · rw [chatLoop_err_other_step execT e n rest st he] at h
            cases h
      | .ok resp :: rest =>
          by_cases hstop : resp.stop_reason = "tool_use"
          · rw [chatLoop_ok_toolUse_step execT resp n rest st hstop] at h
            have h2 := ih rest _ st' h
            calc st.messages
                <+: st.messages ++ [⟨.assistant, resp.content⟩]
                  ++ [⟨.user, executeTools execT resp.content⟩] := by
                  simp [List.append_assoc]
              _ <+: st'.messages := h2
          · rw [chatLoop_ok_end_step execT resp n rest st hstop] at h
            cases h
            exact List.prefix_append _ _

/-- The error thrown by a rate-limited provider call (HTTP 429). -/
def rateLimitError : JsError :=
  { message := "rate limited", status := some 429 }

/-- Consecutive 429 failures are all retried: each one only burns fuel and
records a cooldown; the message history is untouched. -/
theorem chatLoop_replicate429 (execT : String → ToolInput → String) :
    ∀ (k n : Nat) (script : List ModelOutcome) (st : ChatState),
      chatLoop execT (k + n) (List.replicate k (.err rateLimitError) ++ script) st
        = chatLoop execT n script
            ⟨st.messages, st.sleeps ++ List.replicate k 10000⟩ := by
  intro k
  induction k with
  | zero =>
      intro n script st
      simp
  | succ k ih =>
      intro n script st
      have hstep := chatLoop_err429_step execT rateLimitError (k + n)
        (List.replicate k (.err rateLimitError) ++ script) st rfl
      calc chatLoop execT (k + 1 + n)
              (List.replicate (k + 1) (.err rateLimitError) ++ script) st
          = chatLoop execT (k + n + 1)
              (.err rateLimitError
                :: (List.replicate k (.err rateLimitError) ++ script)) st := by
            rw [List.replicate_succ, show k + 1 + n = k + n + 1 from by omega]
            rfl
        _ = chatLoop execT (k + n)
              (List.replicate k (.err rateLimitError) ++ script)
              ⟨st.messages, st.sleeps ++ [10000]⟩ := hstep
        _ = chatLoop execT n script
              ⟨st.messages, st.sleeps ++ [10000] ++ List.replicate k 10000⟩ := by
            rw [ih]
        _ = chatLoop execT n script
              ⟨st.messages, st.sleeps ++ List.replicate (k + 1) 10000⟩ := by
            simp [List.replicate_succ, List.append_assoc]

/-- C3 (amended): when the model call fails with a 429 rate-limit signal,
the loop records the fixed 10000 ms cooldown and re-issues the same call
with the message history unchanged — no user or assistant message is
appended; the retrying is NOT bounded: while the provider keeps returning
429 the loop neither succeeds nor surfaces an error (it spends all its
fuel retrying), and once the rate limiting stops the turn proceeds exactly
as if the first call had succeeded, apart from the recorded cooldowns. -/
theorem rate_limit_retry_c3_amended (execT : String → ToolInput → String) :
    (∀ (e : JsError) (n : Nat) (script : List ModelOutcome) (st : ChatState),
        e.status = some 429 →
        chatLoop execT (n + 1) (.err e :: script) st
          = chatLoop execT n script ⟨st.messages, st.sleeps ++ [10000]⟩) ∧
    (∀ (k : Nat) (st : ChatState),
        chatLoop execT k (List.replicate k (.err rateLimitError)) st
          = .outOfFuel ⟨st.messages, st.sleeps ++ List.replicate k 10000⟩) ∧
    (∀ (k n : Nat) (script : List ModelOutcome) (st : ChatState),
        chatLoop execT (k + n)
            (List.replicate k (.err rateLimitError) ++ script) st
          = chatLoop execT n script
              ⟨st.messages, st.sleeps ++ List.replicate k 10000⟩) := by
  refine ⟨?_, ?_, chatLoop_replicate429 execT⟩
  · intro e n script st he
    exact chatLoop_err429_step execT e n script st he
  · intro k st
    have h := chatLoop_replicate429 execT k 0 [] st
    simpa [chatLoop] using h

/-- Witness for the amended C3: one concrete 429 failure retries with the
same single-message history and a recorded cooldown. -/
theorem rate_limit_retry_c3_amended_witness :
    chatLoop (fun _ _ => "") 1 [.err rateLimitError] ⟨[⟨.user, [.text "hi"]⟩], []⟩
      = chatLoop (fun _ _ => "") 0 [] ⟨[⟨.user, [.text "hi"]⟩], [10000]⟩ := by
  have h := (rate_limit_retry_c3_amended (fun _ _ => "")).1 rateLimitError 0 []
    ⟨[⟨.user, [.text "hi"]⟩], []⟩ (by rfl)
  simpa using h

/-- C3 counterexample: the claim promises that retrying "either eventually
succeeds or surfaces as a reportable error after a bounded number of
attempts", but against a provider that rate-limits every call the source
loop retries forever — here 50 consecutive 429 responses leave the loop
still retrying (out of fuel in this bounded model) with the history
unchanged, having surfaced no error and returned no result. -/
theorem rate_limit_retry_c3_counterexample :
    chatLoop (fun _ _ => "") 50 (List.replicate 50 (.err rateLimitError))
        ⟨[⟨.user, [.text "hi"]⟩], []⟩
      = .outOfFuel ⟨[⟨.user, [.text "hi"]⟩], List.replicate 50 10000⟩ := by
  decide

/-- C4: for a turn whose finalized assistant message has stop reason
`tool_use`, the requested tools are executed sequentially in emission
order — `executeTools` is exactly "keep the `tool_use` blocks in order and
map each to its `tool_result`" — producing exactly one `tool_result` per
`tool_use`, carrying the matching id, and the loop appends all of them to
history as a single new user-role message (right after the assistant
message) before the next model call of the turn. -/
theorem tool_results_matched_c4 (execT : String → ToolInput → String)
    (resp : ModelResponse) (n : Nat) (script : List ModelOutcome)
    (st : ChatState) (hstop : resp.stop_reason = "tool_use") :
    executeTools execT resp.content
        = (resp.content.filter ContentBlock.isToolUse).map
            (ContentBlock.resultFor execT) ∧
    (executeTools execT resp.content).length
        = (resp.content.filter ContentBlock.isToolUse).length ∧
    (executeTools execT resp.content).map ContentBlock.blockId
        = (resp.content.filter ContentBlock.isToolUse).map ContentBlock.blockId ∧
    chatLoop execT (n + 1) (.ok resp :: script) st
        = chatLoop execT n script
            ⟨st.messages ++ [⟨.assistant, resp.content⟩]
               ++ [⟨.user, executeTools execT resp.content⟩], st.sleeps⟩ := by
  refine ⟨executeTools_eq_filter_map execT resp.content, ?_, ?_,
    chatLoop_ok_toolUse_step execT resp n script st hstop⟩
  · rw [executeTools_eq_filter_map]
    simp
  · rw [executeTools_eq_filter_map, List.map_map]
    simp [Function.comp, resultFor_blockId]

/-- Witness for C4: a concrete two-tool turn produces the two matching
results in order and appends them as one user message. -/
theorem tool_results_matched_c4_witness :
    executeTools (fun name _ => name)
        [.toolUse "id1" "score_news" [], .text "x", .toolUse "id2" "get_stats" []]
      = [.toolResult "id1" "score_news", .toolResult "id2" "get_stats"] ∧
    chatLoop (fun name _ => name) 1
        [.ok ⟨[.toolUse "id1" "score_news" []], "tool_use"⟩] ⟨[], []⟩
      = chatLoop (fun name _ => name) 0 []
          ⟨[⟨.assistant, [.toolUse "id1" "score_news" []]⟩,
            ⟨.user, [.toolResult "id1" "score_news"]⟩], []⟩ := by
  constructor
  · have h := (tool_results_matched_c4 (fun name _ => name)
      ⟨[.toolUse "id1" "score_news" [], .text "x",
        .toolUse "id2" "get_stats" []], "tool_use"⟩ 0 [] ⟨[], []⟩ rfl).1
    rw [h]
    rfl
  · have h := (tool_results_matched_c4 (fun name _ => name)
      ⟨[.toolUse "id1" "score_news" []], "tool_use"⟩ 0 [] ⟨[], []⟩ rfl).2.2.2
    simpa using h

/-- C5: in each loop iteration the finalized assistant message is appended
to history first (before any tool dispatch), and — provided the provider's
stop indicator correctly flags the presence of `tool_use` blocks — the
loop exits, returning control to the caller, exactly when the finalized
assistant message contains no `ToolUse` request. -/
theorem loop_exit_condition_c5 (execT : String → ToolInput → String)
    (resp : ModelResponse) (n : Nat) (script : List ModelOutcome)
    (st : ChatState)
    (wf : resp.stop_reason = "tool_use" ↔ hasToolUse resp.content = true) :
    (chatLoop execT (n + 1) (.ok resp :: script) st
        = .done ⟨st.messages ++ [⟨.assistant, resp.content⟩], st.sleeps⟩
      ↔ hasToolUse resp.content = false) ∧
    (hasToolUse resp.content = true →
      chatLoop execT (n + 1) (.ok resp :: script) st
        = chatLoop execT n script
            ⟨st.messages ++ [⟨.assistant, resp.content⟩]
               ++ [⟨.user, executeTools execT resp.content⟩], st.sleeps⟩) := by
  constructor
  · constructor
    · intro h
      cases hcase : hasToolUse resp.content with
      | false => rfl
      | true =>
          have hstop := wf.mpr hcase
          rw [chatLoop_ok_toolUse_step execT resp n script st hstop] at h
          have hpre := chatLoop_done_extends execT n script _ _ h
          have hlen := hpre.length_le
          simp [List.length_append] at hlen
    · intro h
      have hstop : resp.stop_reason ≠ "tool_use" := by
        intro hc
        have := wf.mp hc
        rw [h] at this
        exact Bool.noConfusion this
      exact chatLoop_ok_end_step execT resp n script st hstop
  · intro htu
    exact chatLoop_ok_toolUse_step execT resp n script st (wf.mpr htu)

/-- Witness for C5: a concrete text-only turn appends the assistant
message and exits, and a concrete tool turn continues. -/
theorem loop_exit_condition_c5_witness :
    chatLoop (fun _ _ => "") 1 [.ok ⟨[.text "hi"], "end_turn"⟩] ⟨[], []⟩
      = .done ⟨[⟨.assistant, [.text "hi"]⟩], []⟩ ∧
    chatLoop (fun _ _ => "") 2 [.ok ⟨[.toolUse "id1" "get_stats" []], "tool_use"⟩]
        ⟨[], []⟩
      = chatLoop (fun _ _ => "") 1 []
          ⟨[⟨.assistant, [.toolUse "id1" "get_stats" []]⟩,
            ⟨.user, [.toolResult "id1" ""]⟩], []⟩ := by
  constructor
  · have h := (loop_exit_condition_c5 (fun _ _ => "") ⟨[.text "hi"], "end_turn"⟩
      0 [] ⟨[], []⟩ (by decide)).1.mpr (by decide)
    simpa using h
  · have h := (loop_exit_condition_c5 (fun _ _ => "")
      ⟨[.toolUse "id1" "get_stats" []], "tool_use"⟩ 1 [] ⟨[], []⟩ (by decide)).2
      (by decide)
    simpa using h

/-- C10: a non-429 model-call failure is rethrown only after the turn's
messages so far — the user message and any assistant and tool_result
messages of completed iterations — have been appended, and the history is
not rolled back; the outer input loop's catch prints the error and keeps
prompting (it breaks only on ERR_USE_AFTER_CLOSE), so the session stays
usable with the partially-extended history. -/
theorem error_propagation_c10 (execT : String → ToolInput → String)
    (e : JsError) (resp : ModelResponse) (m : Nat)
    (script : List ModelOutcome) (history : List Message) (u : String)
    (hstop : resp.stop_reason = "tool_use")
    (he : e.status ≠ some 429)
    (hcode : e.code ≠ some "ERR_USE_AFTER_CLOSE") :
    (∀ (n : Nat) (script2 : List ModelOutcome) (st : ChatState),
        chatLoop execT (n + 1) (.err e :: script2) st = .thrown e st) ∧
    chat execT (m + 2) (.ok resp :: .err e :: script) history u
      = .thrown e
          ⟨history ++ [⟨.user, [.text u]⟩, ⟨.assistant, resp.content⟩,
             ⟨.user, executeTools execT resp.content⟩], []⟩ ∧
    (∀ st : ChatState, runStep (.thrown e st) = some st) := by
  refine ⟨?_, ?_, ?_⟩
  · intro n script2 st
    exact chatLoop_err_other_step execT e n script2 st he
  · show chatLoop execT (m + 1 + 1) (.ok resp :: .err e :: script)
        ⟨history ++ [⟨.user, [.text u]⟩], []⟩ = _
    rw [chatLoop_ok_toolUse_step execT resp (m + 1) (.err e :: script) _ hstop,
        chatLoop_err_other_step execT e m script _ he]
    simp [List.append_assoc]
  · intro st
    simp [runStep, hcode]

/-- Witness for C10: a concrete 500 failure after one tool round is
rethrown with the three new messages kept, and the input loop continues. -/
theorem error_propagation_c10_witness :
    chat (fun _ _ => "") 2
        [.ok ⟨[.toolUse "id1" "get_stats" []], "tool_use"⟩,
         .err { message := "boom", status := some 500 }] [] "hello"
      = .thrown { message := "boom", status := some 500 }
          ⟨[⟨.user, [.text "hello"]⟩,
            ⟨.assistant, [.toolUse "id1" "get_stats" []]⟩,
            ⟨.user, [.toolResult "id1" ""]⟩], []⟩ ∧
    runStep (.thrown { message := "boom", status := some 500 }
        ⟨[⟨.user, [.text "hello"]⟩], []⟩)
      = some ⟨[⟨.user, [.text "hello"]⟩], []⟩ := by
  have h := error_propagation_c10 (fun _ _ => "")
    { message := "boom", status := some 500 }
    ⟨[.toolUse "id1" "get_stats" []], "tool_use"⟩ 0 [] [] "hello"
    rfl (by decide) (by decide)
  exact ⟨by simpa using h.2.1, h.2.2 _⟩

/-- C7: the Claude Predict slash preprocessor returns `NotACommand` for
every input whose trimmed form does not begin with `/` (the line is then
passed to the conversation loop verbatim by the caller), and for every
line beginning with `/` whose command word is outside the recognized
vocabulary it prints the two-line diagnostic and returns `Handled` — the
raw slash text is never forwarded to the model. -/
theorem slash_preprocessor_c7 (hasClearHistory : Bool) (input : String) :
    (jsStartsWith (jsTrim input) "/" = false →
        handleSlashCommand hasClearHistory input = (.notACommand, [])) ∧
    (jsStartsWith (jsTrim input) "/" = true →
      slashCommandWord input ∉ predictSlashVocabulary →
        handleSlashCommand hasClearHistory input
          = (.handled,
             [.line ("Unknown command: /"
                ++ headOr (jsSplitSpace (jsDrop (jsTrim input) 1))),
              .line "Type /help for available commands."])) := by
  constructor
  · intro h
    simp [handleSlashCommand, h]
  · intro hs hn
    simp only [predictSlashVocabulary, slashCommandWord, List.mem_cons,
      List.mem_singleton, not_or] at hn
    obtain ⟨h1, h2, h3, h4, h5, h6, h7, h8, h9, h10, h11, h12, h13, h14,
      h15, h16, h17, h18, h19, h20, -⟩ := hn
    simp [handleSlashCommand, hs, h1, h2, h3, h4, h5, h6, h7, h8, h9, h10,
      h11, h12, h13, h14, h15, h16, h17, h18, h19, h20]

/-- Witness for C7: a plain chat line passes through untouched, and an
unrecognized command prints the diagnostic and is handled. -/
theorem slash_preprocessor_c7_witness :
    handleSlashCommand true "what is a market?" = (.notACommand, []) ∧
    handleSlashCommand true "/frobnicate now"
      = (.handled, [.line "Unknown command: /frobnicate",
                    .line "Type /help for available commands."]) := by
  constructor
  · exact (slash_preprocessor_c7 true "what is a market?").1 (by decide)
  · have h := (slash_preprocessor_c7 true "/frobnicate now").2 (by decide) (by decide)
    simpa using h

/-- C8: the input `/create Will X happen by 2027?` makes the PNPFUCIUS
preprocessor invoke the `create_market` tool directly through the
dispatcher with the question `Will X happen by 2027?`, a liquidity of
1 USDC and a duration of 30 days, with that invocation as its only side
effect, and return `Handled`; and the dispatcher's `create_market` call
then returns either a success envelope carrying the market identifier and
transaction signature (with no `error`), or an `error` envelope when the
chain call throws. -/
theorem create_scenario_c8 :
    handleSlashCommandPnp true "/create Will X happen by 2027?"
      = (.handled,
         [.invoke "create_market"
            [("question", .str "Will X happen by 2027?"),
             ("liquidity_usdc", .num 1), ("duration_days", .num 30)]]) ∧
    (∀ (market analytics : String → ToolInput → ExecBehavior)
       (chain : Except JsError (String × String)) (network : String)
       (input : ToolInput) (t0 t1 : Int) (debug : Bool),
       market "create_market" input = executeMarketTool_create chain network input →
       (∃ m sig, chain = .ok (m, sig) ∧
          (executeTool (pnpToolExecutors market analytics) "create_market"
              input t0 t1 debug).error = none ∧
          (executeTool (pnpToolExecutors market analytics) "create_market"
              input t0 t1 debug).fields.lookup "market" = some (.str m) ∧
          (executeTool (pnpToolExecutors market analytics) "create_market"
              input t0 t1 debug).fields.lookup "signature" = some (.str sig) ∧
          (executeTool (pnpToolExecutors market analytics) "create_market"
              input t0 t1 debug).fields.lookup "success" = some (.bool true)) ∨
       (∃ err, chain = .error err ∧
          (executeTool (pnpToolExecutors market analytics) "create_market"
              input t0 t1 debug).error = some err.message)) := by
  constructor
  · rfl
  · intro market analytics chain network input t0 t1 debug hm
    have hlook : (pnpToolExecutors market analytics).lookup "create_market"
        = some market := rfl
    match chain with
    | .ok (m, sig) =>
        left
        refine ⟨m, sig, rfl, ?_, ?_, ?_, ?_⟩ <;>
          simp [executeTool, hlook, hm, executeMarketTool_create, List.lookup]
    | .error err =>
        right
        exact ⟨err, rfl,
          by simp [executeTool, hlook, hm, executeMarketTool_create]⟩

/-- A demonstration market-tool bundle whose `create_market` chain call
succeeds with a fixed address and signature. -/
def c8Market : String → ToolInput → ExecBehavior :=
  fun name input =>
    if name = "create_market" then
      executeMarketTool_create (.ok ("addr1", "sig1")) "devnet" input
    else .returns {}

/-- A demonstration analytics-tool bundle. -/
def c8Analytics : String → ToolInput → ExecBehavior := fun _ _ => .returns {}

/-- Witness for C8: with a concrete successful chain call, dispatching the
`create_market` invocation the preprocessor produced yields a no-error
envelope. -/
theorem create_scenario_c8_witness :
    (executeTool (pnpToolExecutors c8Market c8Analytics) "create_market"
        [("question", .str "Will X happen by 2027?"), ("liquidity_usdc", .num 1),
         ("duration_days", .num 30)] 0 1 false).error = none := by
  have h := create_scenario_c8.2 c8Market c8Analytics (.ok ("addr1", "sig1"))
    "devnet"
    [("question", .str "Will X happen by 2027?"), ("liquidity_usdc", .num 1),
     ("duration_days", .num 30)] 0 1 false (by rfl)
  rcases h with ⟨m, sig, _, herr, _⟩ | ⟨err, hchain, _⟩
  · exact herr
  · cases hchain
